import Mathlib

/-
  Verification of the typeh runtime type-classification and validation library
  (src/lib/typeh.js) via a shallow embedding.

  JavaScript values are modelled by the inductive `JSValue`.  Finite numbers are
  represented by their canonical decimal expansion (sign, integer part, list of
  fractional digits); `NaN` and the two infinities are separate constructors.
  Host primitives used by the source (`typeof`, `Object.prototype.toString`
  class tags, `constructor.name`, `Symbol.iterator` presence, string
  conversion, `isFinite`, `Number.isInteger`, `parseFloat`, subtraction) are
  modelled as functions on this value type.  Objects carry the observables the
  library inspects (class tag, constructor name, iterability, HTML-element
  capability) as fields.  The model covers decimal (non-exponent) textual
  number forms; boxed primitives and `valueOf` overrides are out of scope.
-/

set_option maxRecDepth 4096

namespace Typeh

/-- A finite JS number, given by the canonical decimal expansion of its value:
sign, integer part and fractional digits (canonical form has no trailing zero
in `frac` and no negative zero; see `FiniteNumber.canonical`). -/
structure FiniteNumber where
  neg : Bool
  intPart : Nat
  frac : List (Fin 10)
deriving DecidableEq

/-- A finite number in canonical form: the digit list carries no trailing zero
(a value that is a mathematical integer therefore has `frac = []`, which is how
the host prints `12.0` as `"12"`), and zero is not negative. -/
def FiniteNumber.canonical (f : FiniteNumber) : Prop :=
  (f.frac = [] ∨ f.frac.getLast? ≠ some (0 : Fin 10)) ∧
    (f.neg = true → (f.intPart ≠ 0 ∨ f.frac ≠ []))

instance (f : FiniteNumber) : Decidable f.canonical := by
  unfold FiniteNumber.canonical; infer_instance

/-- A JS number: NaN, an infinity, or a finite value. -/
inductive JSNumber where
  | nan
  | inf (neg : Bool)
  | finite (f : FiniteNumber)
deriving DecidableEq

/-- The observables of an object-like JS value used by the library:
the `[object X]` class tag, the `constructor.name` (when a constructor is
reachable), whether `obj[Symbol.iterator]` is a function, and whether the
value is an HTML element node (`nodeType === 1 && obj instanceof HTMLElement`). -/
structure JSObject where
  classTag : String
  ctor : Option String
  hasIterator : Bool
  htmlElement : Bool
deriving DecidableEq

/-- A JS value, as observed by the library. -/
inductive JSValue where
  | null
  | undefined
  | bool (b : Bool)
  | num (n : JSNumber)
  | str (s : String)
  | sym
  | func
  | object (o : JSObject)
deriving DecidableEq

/-- `obj == null`: true exactly for `null` and `undefined`. -/
def jsNullish : JSValue → Bool
  | .null | .undefined => true
  | _ => false

/-- The `typeof` operator. -/
def jsTypeof : JSValue → String
  | .null => "object"
  | .undefined => "undefined"
  | .bool _ => "boolean"
  | .num _ => "number"
  | .str _ => "string"
  | .sym => "symbol"
  | .func => "function"
  | .object _ => "object"

/-- The `X` of `Object.prototype.toString.call(obj) = "[object X]"`,
i.e. the result of `.slice(8, -1)` on that tag. -/
def toStringTag : JSValue → String
  | .null => "Null"
  | .undefined => "Undefined"
  | .bool _ => "Boolean"
  | .num _ => "Number"
  | .str _ => "String"
  | .sym => "Symbol"
  | .func => "Function"
  | .object o => o.classTag

/-- `obj.constructor && obj.constructor.name`: `none` when no constructor is
reachable (nullish values, `Object.create(null)` objects). -/
def ctorName : JSValue → Option String
  | .null | .undefined => none
  | .bool _ => some "Boolean"
  | .num _ => some "Number"
  | .str _ => some "String"
  | .sym => some "Symbol"
  | .func => some "Function"
  | .object o => o.ctor

/-- `obj != null && typeof obj[Symbol.iterator] === "function"`.
Strings are iterable; plain numbers, booleans, symbols and functions are not. -/
def hasIteratorFn : JSValue → Bool
  | .str _ => true
  | .object o => o.hasIterator
  | _ => false

/-- `obj && obj.nodeType === 1 && obj instanceof HTMLElement`. -/
def htmlElemCheck : JSValue → Bool
  | .object o => o.htmlElement
  | _ => false

/-! ### Characters, digits and strings -/

/-- The character for a decimal digit. -/
def digitChar (d : Fin 10) : Char := Char.ofNat (48 + d.val)

/-- Decimal digits of `n`, most significant first, via explicit fuel so that
the definition reduces in the kernel. -/
def natDigitsAux : Nat → Nat → List (Fin 10)
  | 0, _ => []
  | fuel + 1, n =>
    if h : n < 10 then [⟨n, h⟩]
    else natDigitsAux fuel (n / 10) ++ [⟨n % 10, Nat.mod_lt n (by omega)⟩]

/-- Host decimal printing of a natural number. -/
def natToStr (n : Nat) : String := ⟨(natDigitsAux (n + 1) n).map digitChar⟩

/-- Host `String(n)` for a JS number (decimal form; the model carries the
canonical expansion, so printing concatenates its parts). -/
def numToString : JSNumber → String
  | .nan => "NaN"
  | .inf b => if b then "-Infinity" else "Infinity"
  | .finite f =>
    (if f.neg then "-" else "") ++
      (if f.frac.isEmpty then natToStr f.intPart
       else natToStr f.intPart ++ "." ++ ⟨f.frac.map digitChar⟩)

/-- Host `String(obj)` / `obj + ""` for the values the library inspects. -/
def jsToString : JSValue → String
  | .null => "null"
  | .undefined => "undefined"
  | .bool b => if b then "true" else "false"
  | .num n => numToString n
  | .str s => s
  | .sym => "Symbol()"
  | .func => "function"
  | .object o => "[object " ++ o.classTag ++ "]"

/-- ASCII lower-casing of one character, as `String.prototype.toLowerCase`
acts on the ASCII range. -/
def lowerChar (c : Char) : Char :=
  if 'A' ≤ c ∧ c ≤ 'Z' then Char.ofNat (c.toNat + 32) else c

/-- ASCII upper-casing of one character. -/
def upperChar (c : Char) : Char :=
  if 'a' ≤ c ∧ c ≤ 'z' then Char.ofNat (c.toNat - 32) else c

/-- `s.toLowerCase()`. -/
def jsToLower (s : String) : String := ⟨s.data.map lowerChar⟩

/-- `s.slice(0, n)` for a nonnegative count. -/
def strTake (n : Nat) (s : String) : String := ⟨s.data.take n⟩

/-- `s.slice(n)` for a nonnegative start. -/
def strDrop (n : Nat) (s : String) : String := ⟨s.data.drop n⟩

/-- `s.split(sep)` for a single-character separator (worker on char lists). -/
def splitCharAux (sep : Char) : List Char → List Char → List String
  | [], acc => [⟨acc.reverse⟩]
  | c :: cs, acc =>
    if c = sep then ⟨acc.reverse⟩ :: splitCharAux sep cs []
    else splitCharAux sep cs (c :: acc)

/-- `s.split("|")`. -/
def splitPipe (s : String) : List String := splitCharAux '|' s.data []

/-! ### Numeric host primitives -/

/-- `dropWhile isDigit`, used to model the float regex. -/
def dropDigits : List Char → List Char
  | [] => []
  | c :: cs => if c.isDigit then dropDigits cs else c :: cs

/-- After the optional minus sign: digits, a dot, then one or more digits. -/
def rfloatCore (cs : List Char) : Bool :=
  match dropDigits cs with
  | '.' :: fs => !fs.isEmpty && fs.all Char.isDigit
  | _ => false

/-- The source's float regex `/^-?\d*\.\d+$/` applied to a string. -/
def rfloatTest (s : String) : Bool :=
  rfloatCore (if s.data.head? = some '-' then s.data.tail else s.data)

/-- Digit value of a digit character. -/
def charDigit (c : Char) : Fin 10 := ⟨(c.toNat - 48) % 10, by omega⟩

/-- Numeric value of a list of digit characters. -/
def digitsToNat (cs : List Char) : Nat :=
  cs.foldl (fun acc c => acc * 10 + (c.toNat - 48)) 0

/-- Drop trailing zero digits, producing the canonical fractional part. -/
def stripTrailingZeros (l : List (Fin 10)) : List (Fin 10)  :=
  (l.reverse.dropWhile (fun d => d == (0 : Fin 10))).reverse

/-- Build a finite number in canonical form from parsed parts. -/
def mkFinite (neg : Bool) (ip : Nat) (frac : List (Fin 10)) : FiniteNumber :=
  let fr := stripTrailingZeros frac
  if ip = 0 ∧ fr = [] then ⟨false, 0, []⟩ else ⟨neg, ip, fr⟩

/-- Consume an optional leading sign. -/
def parseSign : List Char → Bool × List Char
  | '-' :: rest => (true, rest)
  | '+' :: rest => (false, rest)
  | cs => (false, cs)

/-- Host `parseFloat` on a string: skip spaces, optional sign, `Infinity`, or
a decimal prefix `digits[.digits]`; `NaN` when no digits are found.
Modelled for decimal (non-exponent) forms. -/
def parseFloatStr (s : String) : JSNumber :=
  let cs := s.data.dropWhile (fun c => c = ' ')
  let p := parseSign cs
  if p.2.take 8 = "Infinity".data then .inf p.1
  else
    let ds := (p.2.span Char.isDigit).1
    let rest := (p.2.span Char.isDigit).2
    let fs := match rest with
      | '.' :: r => (r.span Char.isDigit).1
      | _ => []
    if ds = [] ∧ fs = [] then .nan
    else .finite (mkFinite p.1 (digitsToNat ds) (fs.map charDigit))

/-- Host `ToNumber` on a string: trimmed empty string is zero, otherwise the
whole string must be a signed decimal numeral or `Infinity`.
Modelled for decimal (non-exponent) forms. -/
def strToNumber (s : String) : JSNumber :=
  let cs := ((s.data.dropWhile (fun c => c = ' ')).reverse.dropWhile
    (fun c => c = ' ')).reverse
  if cs = [] then .finite ⟨false, 0, []⟩
  else
    let p := parseSign cs
    if p.2 = "Infinity".data then .inf p.1
    else
      let ds := (p.2.span Char.isDigit).1
      let rest := (p.2.span Char.isDigit).2
      match rest with
      | [] => if ds = [] then .nan else .finite (mkFinite p.1 (digitsToNat ds) [])
      | '.' :: r =>
        let fs := (r.span Char.isDigit).1
        if (r.span Char.isDigit).2 = [] ∧ ¬(ds = [] ∧ fs = []) then
          .finite (mkFinite p.1 (digitsToNat ds) (fs.map charDigit))
        else .nan
      | _ => .nan

/-- Host `ToNumber` coercion of a value.  Symbols throw in JS; the library
never coerces one on a reachable path, so the model returns NaN there.
Model objects carry no `valueOf` override and coerce to NaN. -/
def toNumber : JSValue → JSNumber
  | .null => .finite ⟨false, 0, []⟩
  | .undefined => .nan
  | .bool b => .finite ⟨false, if b then 1 else 0, []⟩
  | .num n => n
  | .str s => strToNumber s
  | .sym => .nan
  | .func => .nan
  | .object _ => .nan

/-- Global `isFinite(obj)`: coerce to number, test finiteness. -/
def jsIsFinite (obj : JSValue) : Bool :=
  match toNumber obj with
  | .finite _ => true
  | _ => false

/-- `Number.isInteger(obj)`: a finite number primitive whose fractional
digits are all zero. -/
def jsNumIsInteger (obj : JSValue) : Bool :=
  match obj with
  | .num (.finite f) => f.frac.all (fun d => d == (0 : Fin 10))
  | _ => false

/-- `parseFloat(obj)`: coerce the argument to a string, then parse. -/
def parseFloatJS (obj : JSValue) : JSNumber := parseFloatStr (jsToString obj)

/-- Fractional digits as a natural number (after padding to a fixed width). -/
def fracToNat (l : List (Fin 10)) : Nat :=
  l.foldl (fun acc d => acc * 10 + d.val) 0

/-- The integer `f * 10 ^ k` for a finite number with at most `k`
fractional digits. -/
def FiniteNumber.scaled (f : FiniteNumber) (k : Nat) : Int :=
  let mag : Nat :=
    f.intPart * 10 ^ k + fracToNat (f.frac ++ List.replicate (k - f.frac.length) 0)
  if f.neg then -(mag : Int) else (mag : Int)

/-- The `k` decimal digits of `n` (most significant first, zero padded). -/
def natFixedDigits : Nat → Nat → List (Fin 10)
  | _, 0 => []
  | n, k + 1 => natFixedDigits (n / 10) k ++ [⟨n % 10, by omega⟩]

/-- Exact subtraction of two finite decimal numbers. -/
def decSub (a b : FiniteNumber) : FiniteNumber :=
  let k := max a.frac.length b.frac.length
  let d := a.scaled k - b.scaled k
  mkFinite (decide (d < 0)) (d.natAbs / 10 ^ k) (natFixedDigits (d.natAbs % 10 ^ k) k)

/-- JS number subtraction `a - b` on the model. -/
def jsSub : JSNumber → JSNumber → JSNumber
  | .nan, _ => .nan
  | _, .nan => .nan
  | .inf s, .inf t => if s = t then .nan else .inf s
  | .inf s, .finite _ => .inf s
  | .finite _, .inf t => .inf (!t)
  | .finite a, .finite b => .finite (decSub a b)

/-- Global `isNaN` applied to a number (the library only applies it to
numeric results). -/
def jsIsNaN : JSNumber → Bool
  | .nan => true
  | _ => false

/-! ### The classifiers (`isType`, `toType`) -/

/-- The names fed to the `class2type` population loop:
`"Boolean Number String Function Array Date RegExp Object Error Symbol".split(" ")`. -/
def classNames : List String :=
  splitCharAux ' ' "Boolean Number String Function Array Date RegExp Object Error Symbol".data []

/-- The `class2type` table: `"[object X]"` mapped to the lowercase name. -/
def class2type : List (String × String) :=
  classNames.map (fun name => ("[" ++ "object " ++ name ++ "]", jsToLower name))

/-- Lookup in `class2type`. -/
def class2typeGet (tag : String) : Option String :=
  (class2type.find? (fun p => p.1 == tag)).map (fun p => p.2)

/-- `isType(obj)`: `"null"`/`"undefined"` for nullish values; for objects and
functions the mapped class-tag name (defaulting to `"object"`); otherwise
`typeof obj`. -/
def isType (obj : JSValue) : String :=
  if jsNullish obj then jsToString obj
  else if jsTypeof obj = "object" ∨ jsTypeof obj = "function" then
    (class2typeGet ("[object " ++ toStringTag obj ++ "]")).getD "object"
  else jsTypeof obj

/-- `(construct = obj.constructor) && construct.name || Object.prototype
.toString.call(obj).slice(8, -1)`: the constructor name when reachable and
nonempty, else the class tag. -/
def ctorOrTag (obj : JSValue) : String :=
  match ctorName obj with
  | some n => if n = "" then toStringTag obj else n
  | none => toStringTag obj

/-- The lowercased derived name, with `"number"` normalized to `"int"`. -/
def baseType (obj : JSValue) : String :=
  if jsToLower (ctorOrTag obj) = "number" then "int" else jsToLower (ctorOrTag obj)

/-- `toType(obj)`: refined classification; a normalized `"int"` is
reclassified `"float"` when the value is finite and its text matches the
float regex or it is not a mathematical integer. -/
def toType (obj : JSValue) : String :=
  match obj with
  | .null => "null"
  | .undefined => "undefined"
  | _ =>
    if baseType obj = "int" ∧ jsIsFinite obj = true ∧
        (rfloatTest (jsToString obj) = true ∨ jsNumIsInteger obj = false) then "float"
    else baseType obj

/-! ### The matcher (`typeMatches`) and validator (`define`) -/

/-- The candidate loop of `typeMatches`: each branch that fires breaks out of
the loop with its result; the `iterable` branch breaks with the result of the
iterability test whether or not it succeeded.  A candidate that fires no
branch leaves `matched` unchanged. -/
def matchLoop : List String → JSValue → String → Bool → Bool
  | [], _, _, matched => matched
  | cand :: rest, obj, ofType, matched =>
    if htmlElemCheck obj = true ∧ jsToLower cand = "htmlelement" then true
    else if jsToLower cand = "callable" ∧ ofType = "function" then true
    else if jsToLower cand = "iterable" then hasIteratorFn obj
    else if (jsTypeof obj = "boolean" ∧ jsToLower cand = jsToString obj) ∨
        jsToLower cand = strTake 4 ofType then true
    else if jsToLower cand = ofType ∨ jsToLower cand = isType obj ∨
        jsToLower cand = "mixed" then true
    else matchLoop rest obj ofType matched

/-- `typeMatches(type, obj)`: strip a leading `"?"` (recording a match when
the value is nullish), split on `"|"`, and run the candidate loop. -/
def typeMatches (type : String) (obj : JSValue) : Bool :=
  if strTake 1 type = "?" then
    matchLoop (splitPipe (strDrop 1 type)) obj (toType obj) (jsNullish obj)
  else
    matchLoop (splitPipe type) obj (toType obj) false

/-- The expression after removing a leading nullability marker. -/
def stripMark (type : String) : String :=
  if strTake 1 type = "?" then strDrop 1 type else type

/-- `typeh.define(type, obj)`: the value on a match, otherwise an error whose
message embeds the expression and the refined type. -/
def define (type : String) (obj : JSValue) : Except String JSValue :=
  if !typeMatches type obj then
    Except.error ("The value must be of type [" ++ type ++ "], [" ++ toType obj ++ "] given.")
  else Except.ok obj

/-! ### Catalog-driven accessor generation -/

/-- The catalog: `"int|float|string|bool|array|object|callable|iterable|mixed|null|false|true".split("|")`. -/
def typesList : List String :=
  splitPipe "int|float|string|bool|array|object|callable|iterable|mixed|null|false|true"

/-- `type[0].toUpperCase() + type.slice(1)`. -/
def capitalizeJS (s : String) : String :=
  (⟨(s.data.take 1).map upperChar⟩ : String) ++ strDrop 1 s

/-- The function table built at startup: named enforcing constructors and
named is-predicates. -/
structure Registry where
  enforcers : List (String × (JSValue → Except String JSValue))
  preds : List (String × (JSValue → Bool))

/-- One step of the generation loop (`Each(types, ...)`): the optional
constructor `_<type>`, the enforcing constructor `<type>`, and (except for
`"mixed"`) the predicate `is<Type>`. -/
def addType (reg : Registry) (type : String) : Registry :=
  let reg1 : Registry :=
    { reg with enforcers := reg.enforcers ++
        [("_" ++ type, fun obj => define ("?" ++ type) obj),
         (type, fun obj => define type obj)] }
  if type ≠ "mixed" then
    { reg1 with preds := reg1.preds ++
        [("is" ++ capitalizeJS type, fun obj => typeMatches type obj)] }
  else reg1

/-- The registry after the startup loop over the catalog. -/
def typehRegistry : Registry := typesList.foldl addType ⟨[], []⟩

/-- Property lookup in a generated table. -/
def lookupFn {α : Type} (l : List (String × α)) (k : String) : Option α :=
  (l.find? (fun p => p.1 == k)).map (fun p => p.2)

/-- Call the named enforcing constructor on a value. -/
def applyEnforcer (k : String) (v : JSValue) : Option (Except String JSValue) :=
  (lookupFn typehRegistry.enforcers k).map (fun f => f v)

/-- Call the named predicate on a value. -/
def applyPred (k : String) (v : JSValue) : Option Bool :=
  (lookupFn typehRegistry.preds k).map (fun f => f v)

/-- The generated global `isInt`. -/
def isInt (obj : JSValue) : Bool := typeMatches "int" obj

/-- The generated global `isString`. -/
def isString (obj : JSValue) : Bool := typeMatches "string" obj

/-- `typeh.isNumeric(obj)`:
`(isInt(obj) || isString(obj)) && !isNaN(obj - parseFloat(obj))`. -/
def isNumeric (obj : JSValue) : Bool :=
  (isInt obj || isString obj) && !(jsIsNaN (jsSub (toNumber obj) (parseFloatJS obj)))

/-- The JS number for a small natural literal. -/
def jsInt (n : Nat) : JSValue := .num (.finite ⟨false, n, []⟩)

/-! ## Supporting lemmas -/

lemma digitChar_isDigit : ∀ d : Fin 10, (digitChar d).isDigit = true := by decide

lemma mapDigits_all (l : List (Fin 10)) :
    (l.map digitChar).all Char.isDigit = true := by
  induction l with
  | nil => rfl
  | cons d t ih => simp [List.all_cons, digitChar_isDigit d, ih]

lemma dropDigits_of_all (l : List Char) (h : l.all Char.isDigit = true) :
    dropDigits l = [] := by
  induction l with
  | nil => rfl
  | cons c t ih =>
    simp only [List.all_cons, Bool.and_eq_true] at h
    unfold dropDigits
    rw [if_pos h.1]
    exact ih h.2

lemma rfloatCore_of_all (l : List Char) (h : l.all Char.isDigit = true) :
    rfloatCore l = false := by
  unfold rfloatCore
  rw [dropDigits_of_all l h]

lemma rfloatTest_digits (l : List Char) (h : l.all Char.isDigit = true) :
    rfloatTest ⟨l⟩ = false ∧ rfloatTest ⟨'-' :: l⟩ = false := by
  constructor
  · unfold rfloatTest
    have hhead : ¬ ((⟨l⟩ : String).data.head? = some '-') := by
      cases l with
      | nil => simp
      | cons c t =>
        intro hx
        have hc : c = '-' := Option.some.inj hx
        subst hc
        simp only [List.all_cons, Bool.and_eq_true] at h
        exact absurd h.1 (by decide)
    rw [if_neg hhead]
    exact rfloatCore_of_all l h
  · exact rfloatCore_of_all l h

/-- `strTake 4` of any string is too short to be a five-letter word. -/
lemma mixed_ne_strTake4 (s : String) : ("mixed" : String) ≠ strTake 4 s := by
  intro h
  have h2 : ("mixed" : String).data = s.data.take 4 := congrArg String.data h
  have h3 := congrArg List.length h2
  rw [List.length_take] at h3
  have h5 : ("mixed" : String).data.length = 5 := rfl
  rw [h5] at h3
  omega

/-- Once the nullability marker has recorded a match, the loop can only lose
it at an `iterable` candidate. -/
lemma matchLoop_stay_true (cands : List String) (v : JSValue) (t : String)
    (h : ∀ c ∈ cands, jsToLower c ≠ "iterable") :
    matchLoop cands v t true = true := by
  induction cands with
  | nil => rfl
  | cons c rest ih =>
    have hc : jsToLower c ≠ "iterable" := h c (List.mem_cons_self c rest)
    have hrest : ∀ c' ∈ rest, jsToLower c' ≠ "iterable" :=
      fun c' hc' => h c' (List.mem_cons_of_mem c hc')
    unfold matchLoop
    rw [if_neg hc]
    split
    · rfl
    split
    · rfl
    split
    · rfl
    split
    · rfl
    exact ih hrest

/-- A candidate list none of whose lowered members fires any branch leaves
`matched = false` untouched. -/
lemma matchLoop_stays_false (cands : List String) (v : JSValue)
    (h : ∀ c ∈ cands,
      jsToLower c ≠ "htmlelement" ∧ jsToLower c ≠ "callable" ∧
      jsToLower c ≠ "iterable" ∧ jsToLower c ≠ jsToString v ∧
      jsToLower c ≠ strTake 4 (toType v) ∧ jsToLower c ≠ toType v ∧
      jsToLower c ≠ isType v ∧ jsToLower c ≠ "mixed") :
    matchLoop cands v (toType v) false = false := by
  induction cands with
  | nil => rfl
  | cons c rest ih =>
    obtain ⟨h1, h2, h3, h4, h5, h6, h7, h8⟩ := h c (List.mem_cons_self c rest)
    have hrest := fun c' hc' => h c' (List.mem_cons_of_mem c hc')
    unfold matchLoop
    rw [if_neg (by rintro ⟨-, hx⟩; exact h1 hx),
      if_neg (by rintro ⟨hx, -⟩; exact h2 hx),
      if_neg h3,
      if_neg (by rintro (⟨-, hx⟩ | hx); exacts [h4 hx, h5 hx]),
      if_neg (by rintro (hx | hx | hx); exacts [h6 hx, h7 hx, h8 hx])]
    exact ih hrest

/-- The candidate loop only depends on the lower-cased candidates. -/
lemma matchLoop_congr (l1 l2 : List String) (v : JSValue) (t : String) (m : Bool)
    (h : l1.map jsToLower = l2.map jsToLower) :
    matchLoop l1 v t m = matchLoop l2 v t m := by
  induction l1 generalizing l2 with
  | nil =>
    have h2 : l2 = [] := List.map_eq_nil_iff.mp h.symm
    subst h2; rfl
  | cons c r ih =>
    cases l2 with
    | nil => simp at h
    | cons c2 r2 =>
      simp only [List.map_cons, List.cons.injEq] at h
      obtain ⟨hc, hr⟩ := h
      unfold matchLoop
      rw [hc, ih r2 hr]

/-! ## The claims -/

/-- Claim C1: for every (canonical) finite number value, `toType` returns
`"int"` exactly when the value is a mathematical integer — whose canonical
textual form then has no fractional part, which is how `12.0` is classified
`"int"` — and `"float"` when the finite value is not a mathematical integer
(equivalently, when its canonical text has a fractional part, as for `12.5`). -/
theorem claim_C1 (f : FiniteNumber) (hc : f.canonical) :
    (f.frac = [] → toType (.num (.finite f)) = "int") ∧
    (f.frac ≠ [] → toType (.num (.finite f)) = "float") := by
  obtain ⟨fneg, fip, ffrac⟩ := f
  constructor
  · intro h0
    dsimp only at h0
    subst h0
    have hint : jsNumIsInteger (.num (.finite ⟨fneg, fip, []⟩)) = true := rfl
    have hrf : rfloatTest (jsToString (.num (.finite ⟨fneg, fip, []⟩))) = false := by
      cases fneg
      · exact (rfloatTest_digits _ (mapDigits_all _)).1
      · exact (rfloatTest_digits _ (mapDigits_all _)).2
    simp only [toType]
    rw [if_neg]
    · rfl
    · rintro ⟨-, -, (hx | hx)⟩
      · rw [hrf] at hx; exact absurd hx (by decide)
      · rw [hint] at hx; exact absurd hx (by decide)
  · intro hne
    dsimp only at hne hc
    have hint : jsNumIsInteger (.num (.finite ⟨fneg, fip, ffrac⟩)) = false := by
      show ffrac.all (fun d => d == (0 : Fin 10)) = false
      rcases hc.1 with h | h
      · exact absurd h hne
      · by_contra hall
        rw [Bool.not_eq_false, List.all_eq_true] at hall
        have hmem := List.getLast_mem hne
        have h0 : ffrac.getLast hne = 0 := by simpa using hall _ hmem
        apply h
        rw [List.getLast?_eq_getLast_of_ne_nil hne, h0]
    simp only [toType]
    rw [if_pos ⟨rfl, rfl, Or.inr hint⟩]

/-- Witness for C1 at `12` (printed without fractional digits) and `12.5`. -/
theorem claim_C1_witness :
    toType (.num (.finite ⟨false, 12, []⟩)) = "int" ∧
    toType (.num (.finite ⟨false, 12, [(5 : Fin 10)]⟩)) = "float" :=
  ⟨(claim_C1 ⟨false, 12, []⟩ (by decide)).1 rfl,
   (claim_C1 ⟨false, 12, [(5 : Fin 10)]⟩ (by decide)).2 (by decide)⟩

/-- Claim C2, corrected: the claim fails for an expression listing
`"iterable"`; see `claim_C2_cex`.  Amended: for every type expression `E`
none of whose pipe-separated labels lower-cases to `"iterable"`, and every
nullish value, `matches("?" ++ E, v)` is true — the nullish match recorded
when the marker is stripped survives the candidate loop, which can reset it
only at an `iterable` candidate. -/
theorem claim_C2 (E : String) (v : JSValue) (hv : jsNullish v = true)
    (hE : ∀ c ∈ splitPipe E, jsToLower c ≠ "iterable") :
    typeMatches ("?" ++ E) v = true := by
  unfold typeMatches
  show matchLoop (splitPipe E) v (toType v) (jsNullish v) = true
  rw [hv]
  exact matchLoop_stay_true _ _ _ hE

/-- Counterexample to C2 as stated: the nullability marker does not
short-circuit, and the `iterable` candidate resets the match on `null`. -/
theorem claim_C2_cex : typeMatches "?iterable" JSValue.null = false := by decide

/-- Witness for the amended C2. -/
theorem claim_C2_witness : typeMatches "?string" JSValue.null = true :=
  claim_C2 "string" JSValue.null rfl (by decide)

/-- Claim C3: whenever the ordered candidate scan reaches a candidate that
lower-cases to `"iterable"`, the loop terminates there with the result of the
iterability test, whatever the remaining candidates or the accumulated state;
hence `matches("iterable|int", 5)` is false although `5` matches `"int"`. -/
theorem claim_C3 :
    (∀ (cand : String) (rest : List String) (v : JSValue) (t : String) (m : Bool),
      jsToLower cand = "iterable" →
      matchLoop (cand :: rest) v t m = hasIteratorFn v) ∧
    typeMatches "iterable|int" (jsInt 5) = false := by
  refine ⟨?_, by decide⟩
  intro cand rest v t m hc
  unfold matchLoop
  simp only [hc]
  simp

/-- Witness for C3: the loop stops at an upper-cased `ITERABLE` candidate. -/
theorem claim_C3_witness :
    matchLoop ["ITERABLE", "int"] (jsInt 5) "int" false = hasIteratorFn (jsInt 5) :=
  claim_C3.1 "ITERABLE" ["int"] (jsInt 5) "int" false (by decide)

/-- Claim C5: `toType` maps positive infinity, negative infinity and NaN to
`"int"`: the finiteness guard keeps every non-finite number out of the
`"float"` reclassification. -/
theorem claim_C5 :
    toType (.num (.inf false)) = "int" ∧ toType (.num (.inf true)) = "int" ∧
    toType (.num .nan) = "int" := by decide

/-- Claim C6: the label `"mixed"` matches every value unconditionally —
including nullish values, functions and symbols. -/
theorem claim_C6 (v : JSValue) : typeMatches "mixed" v = true := by
  unfold typeMatches
  rw [if_neg (by decide : ¬ strTake 1 "mixed" = "?")]
  show matchLoop ["mixed"] v (toType v) false = true
  unfold matchLoop
  rw [if_neg (by rintro ⟨-, hx⟩; exact absurd hx (by decide)),
    if_neg (by rintro ⟨hx, -⟩; exact absurd hx (by decide)),
    if_neg (by decide : ¬ jsToLower "mixed" = "iterable"),
    if_neg ?hb,
    if_pos (Or.inr (Or.inr (by decide)))]
  case hb =>
    rintro (⟨h1, h2⟩ | h2)
    · rcases v with _ | _ | b | n | s | _ | _ | o <;>
        first
          | (cases b <;> exact absurd h2 (by decide))
          | simp [jsTypeof] at h1
    · exact mixed_ne_strTake4 (toType v) ((by decide : jsToLower "mixed" = "mixed") ▸ h2)

/-- Claim C4, corrected: the claim fails because a label equal to the first
four characters of the value's refined type matches although it is outside
every recognized name set; see `claim_C4_cex`.  Amended: if every label of
the expression (lowercased, after stripping the nullability marker) is none
of the branch-recognized names for the value — not `"mixed"`,
`"htmlelement"`, `"callable"` or `"iterable"`, different from the value's
refined type, coarse type, boolean string form, and from the first four
characters of the refined type — and the value is non-nullish whenever the
expression carries the marker, then `matches` returns false and `define`
raises. -/
theorem claim_C4 (E : String) (v : JSValue)
    (hmark : strTake 1 E = "?" → jsNullish v = false)
    (h : ∀ c ∈ splitPipe (stripMark E),
      jsToLower c ≠ "htmlelement" ∧ jsToLower c ≠ "callable" ∧
      jsToLower c ≠ "iterable" ∧ jsToLower c ≠ jsToString v ∧
      jsToLower c ≠ strTake 4 (toType v) ∧ jsToLower c ≠ toType v ∧
      jsToLower c ≠ isType v ∧ jsToLower c ≠ "mixed") :
    typeMatches E v = false ∧
      define E v = Except.error
        ("The value must be of type [" ++ E ++ "], [" ++ toType v ++ "] given.") := by
  have hm : typeMatches E v = false := by
    unfold typeMatches
    by_cases hq : strTake 1 E = "?"
    · rw [if_pos hq, hmark hq]
      have hsp : splitPipe (stripMark E) = splitPipe (strDrop 1 E) := by
        rw [stripMark, if_pos hq]
      rw [hsp] at h
      exact matchLoop_stays_false _ _ h
    · rw [if_neg hq]
      have hsp : splitPipe (stripMark E) = splitPipe E := by
        rw [stripMark, if_neg hq]
      rw [hsp] at h
      exact matchLoop_stays_false _ _ h
  refine ⟨hm, ?_⟩
  unfold define
  rw [hm]
  rfl

/-- Counterexample to C4 as stated: `"func"` is outside the validation
catalog, the class-tag names and every constructor-derived name (a function
derives `"function"`), yet it matches a function through the four-character
prefix rule, and `define` does not raise. -/
theorem claim_C4_cex :
    typeMatches "func" JSValue.func = true ∧
      define "func" JSValue.func = Except.ok JSValue.func :=
  ⟨by decide, rfl⟩

/-- Witness for the amended C4. -/
theorem claim_C4_witness :
    typeMatches "foo" (jsInt 3) = false ∧
      define "foo" (jsInt 3) =
        Except.error "The value must be of type [foo], [int] given." :=
  claim_C4 "foo" (jsInt 3) (by decide) (by decide)

/-- Claim C7: `define` returns exactly the input value when the expression
matches, and raises — with a message embedding the expression as given and
the refined type of the value — exactly when it does not. -/
theorem claim_C7 (E : String) (v : JSValue) :
    (define E v = Except.ok v ↔ typeMatches E v = true) ∧
    (typeMatches E v = false →
      define E v = Except.error
        ("The value must be of type [" ++ E ++ "], [" ++ toType v ++ "] given.")) := by
  unfold define
  by_cases h : typeMatches E v = true
  · simp [h]
  · have h' : typeMatches E v = false := by simpa using h
    simp [h']

/-- Witness for C7 at a failing input. -/
theorem claim_C7_witness :
    define "string" (jsInt 3) =
      Except.error "The value must be of type [string], [int] given." :=
  (claim_C7 "string" (jsInt 3)).2 (by decide)

/-- Claim C8: for every catalog label, the generated enforcing constructor
agrees with `define` on the bare label, the generated optional constructor
agrees with `define` on the `"?"`-marked label, and for every label except
`"mixed"` the generated is-predicate agrees with `typeMatches` (it returns a
boolean and never raises). -/
theorem claim_C8 (L : String) (hL : L ∈ typesList) (v : JSValue) :
    applyEnforcer L v = some (define L v) ∧
    applyEnforcer ("_" ++ L) v = some (define ("?" ++ L) v) ∧
    (L ≠ "mixed" → applyPred ("is" ++ capitalizeJS L) v = some (typeMatches L v)) := by
  have hT : typesList =
      ["int", "float", "string", "bool", "array", "object", "callable",
       "iterable", "mixed", "null", "false", "true"] := rfl
  rw [hT] at hL
  simp only [List.mem_cons, List.not_mem_nil, or_false] at hL
  rcases hL with rfl | rfl | rfl | rfl | rfl | rfl | rfl | rfl | rfl | rfl | rfl | rfl <;>
    first
      | exact ⟨rfl, rfl, fun _ => rfl⟩
      | exact ⟨rfl, rfl, fun hne => absurd rfl hne⟩

/-- Witness for C8 at the label `"int"`. -/
theorem claim_C8_witness :
    applyEnforcer "int" (jsInt 3) = some (define "int" (jsInt 3)) ∧
    applyEnforcer "_int" (jsInt 3) = some (define "?int" (jsInt 3)) ∧
    applyPred "isInt" (jsInt 3) = some (typeMatches "int" (jsInt 3)) := by
  have h := claim_C8 "int" (by decide) (jsInt 3)
  exact ⟨h.1, h.2.1, h.2.2 (by decide)⟩

/-- Claim C9: matching is case-insensitive on the type labels — two
expressions with the same nullability marker whose split labels agree after
lower-casing (as a label and any different-case variant of it do) match
exactly the same values. -/
theorem claim_C9 (E E' : String) (v : JSValue)
    (hm : (strTake 1 E = "?") ↔ (strTake 1 E' = "?"))
    (hl : (splitPipe (stripMark E)).map jsToLower =
      (splitPipe (stripMark E')).map jsToLower) :
    typeMatches E v = typeMatches E' v := by
  unfold typeMatches
  by_cases hq : strTake 1 E = "?"
  · have hq' : strTake 1 E' = "?" := hm.mp hq
    rw [if_pos hq, if_pos hq']
    rw [stripMark, if_pos hq, stripMark, if_pos hq'] at hl
    exact matchLoop_congr _ _ _ _ _ hl
  · have hq' : ¬ strTake 1 E' = "?" := fun hx => hq (hm.mpr hx)
    rw [if_neg hq, if_neg hq']
    rw [stripMark, if_neg hq, stripMark, if_neg hq'] at hl
    exact matchLoop_congr _ _ _ _ _ hl

/-- Witness for C9: `"INT|Float"` and `"int|float"` agree, and match `3`. -/
theorem claim_C9_witness :
    typeMatches "INT|Float" (jsInt 3) = typeMatches "int|float" (jsInt 3) ∧
    typeMatches "int|float" (jsInt 3) = true :=
  ⟨claim_C9 "INT|Float" "int|float" (jsInt 3) (by decide) (by decide), by decide⟩

/-- Claim C10: the generated predicate `isInt` accepts NaN and both
infinities (their refined type is `"int"`), while `isNumeric` rejects all
three, because subtracting `parseFloat` of the value from the value yields
NaN for every non-finite number. -/
theorem claim_C10 :
    applyPred "isInt" (.num .nan) = some true ∧
    applyPred "isInt" (.num (.inf false)) = some true ∧
    applyPred "isInt" (.num (.inf true)) = some true ∧
    isNumeric (.num .nan) = false ∧
    isNumeric (.num (.inf false)) = false ∧
    isNumeric (.num (.inf true)) = false := by decide

end Typeh
